import Mathlib

/-!
Verification development for the KBUS message bus (kbus.py and the kernel
module it exercises).

The message codec (class Message in kbus.py) is embedded directly from the
Python source.  A Python str is represented as a List Nat of byte values
(each < 256); the array.array with typecode L of 32-bit unsigned words is
represented as a List Nat of word values.  Python exceptions are mapped to
an explicit error type: the ValueError raised for a too-short message name
is InvalidName, the ValueError raised by the array constructor on a string
whose length is not a multiple of 4 is InvalidPayload, the assertion
failures on guard or length mismatch (and the IndexError raised when the
buffer is too short to hold the fixed header) are CorruptMessage, the
OverflowError raised when appending a value that does not fit in 32 bits
is Overflow, and the ValueError raised for a nonsensical constructor
argument is InvalidArg.
-/

namespace KBus

def START_GUARD : Nat := 0x7375626B

def END_GUARD : Nat := 0x6B627573

inductive CodecError where
  | InvalidName
  | InvalidPayload
  | CorruptMessage
  | InvalidArg
  | Overflow
deriving DecidableEq

/-- Grouping of a byte string into little-endian 32-bit words, as done by
the Python expression constructing an array of typecode L from a string.
Callers guard the length being a multiple of 4 (the Python array
constructor raises otherwise); trailing bytes short of a word are dropped
here and never arise under that guard. -/
def bytesToWords : List Nat → List Nat
  | b0 :: b1 :: b2 :: b3 :: rest =>
      (b0 + 256 * b1 + 65536 * b2 + 16777216 * b3) :: bytesToWords rest
  | _ => []

/-- Expansion of 32-bit words back into their little-endian bytes, as done
by the tostring method on an array of typecode L. -/
def wordsToBytes : List Nat → List Nat
  | [] => []
  | w :: rest =>
      w % 256 :: w / 256 % 256 :: w / 65536 % 256 :: w / 16777216 % 256 ::
        wordsToBytes rest

/-- Zero-padding of the message name to a 4-byte boundary: the while loop
in Message._from_data appending NUL characters while the length is not a
multiple of 4. -/
def padTo4 (name : List Nat) : List Nat :=
  name ++ List.replicate ((4 - name.length % 4) % 4) 0

/-- The three shapes the data argument of Message._from_data can take:
None, an array of typecode L (words), or a string (bytes). -/
inductive MData where
  | noData
  | words (ws : List Nat)
  | bytes (bs : List Nat)
deriving DecidableEq

/-- Conversion of the data argument to a word list, per Message._from_data:
None contributes nothing, a word array is kept as is, a byte string is
regrouped into words and the array constructor raises (InvalidPayload)
when its length is not a multiple of 4. -/
def dataToWords : MData → Except CodecError (List Nat)
  | .noData => .ok []
  | .words ws => .ok ws
  | .bytes bs =>
      if bs.length % 4 = 0 then .ok (bytesToWords bs) else .error .InvalidPayload

/-- Message._from_data: build the word array
start guard, id placeholder 0, to, from, flags, name length in bytes,
data length in words, the padded name, the data words, end guard.
The to, from and flags cells are 32-bit: a larger value makes the Python
array append raise OverflowError. -/
def fromData (name : List Nat) (data : MData) (to_ from_ flags : Nat) :
    Except CodecError (List Nat) :=
  if to_ < 4294967296 ∧ from_ < 4294967296 ∧ flags < 4294967296 then
    match dataToWords data with
    | .error e => .error e
    | .ok ws =>
        .ok ([START_GUARD, 0, to_, from_, flags, name.length, ws.length]
              ++ bytesToWords (padTo4 name) ++ ws ++ [END_GUARD])
  else .error .Overflow

/-- Message._check: the guards must match their sentinels, the declared
name length must be at least 3 bytes, and
8 + ceil(name_len_bytes / 4) + data_len must equal the word count.
A buffer too short to hold the seven header words makes the Python code
raise IndexError, mapped to CorruptMessage here. -/
def check (a : List Nat) : Except CodecError Unit :=
  if a.head? ≠ some START_GUARD then .error .CorruptMessage
  else if a.getLast? ≠ some END_GUARD then .error .CorruptMessage
  else if a.length < 7 then .error .CorruptMessage
  else
    let nameLenBytes := a.getD 5 0
    let nameLen := (nameLenBytes + 3) / 4
    let dataLen := a.getD 6 0
    if nameLenBytes < 3 then .error .InvalidName
    else if 8 + nameLen + dataLen ≠ a.length then .error .CorruptMessage
    else .ok ()

/-- The tuple returned by Message.extract: (id, to, from, flags, name,
data_array).  The name is recovered by expanding its word slice to bytes
and truncating to the declared byte length; the data is the declared
number of words after the name. -/
structure Extracted where
  id : Nat
  to_ : Nat
  from_ : Nat
  flags : Nat
  name : List Nat
  dataArr : List Nat
deriving DecidableEq

/-- Message.extract, with Python slices rendered as drop and take (both
clip at the end of the list exactly as slices do). -/
def extract (a : List Nat) : Extracted :=
  let nameLen := a.getD 5 0
  let dataLen := a.getD 6 0
  let nal := (nameLen + 3) / 4
  { id := a.getD 1 0
    to_ := a.getD 2 0
    from_ := a.getD 3 0
    flags := a.getD 4 0
    name := (wordsToBytes ((a.drop 7).take nal)).take nameLen
    dataArr := (a.drop (7 + nal)).take dataLen }

/-- Message.equivalent: false when the encoded lengths differ, otherwise
compare the extracted parts after overwriting the id and from fields of
the first with those of the second. -/
def equivalent (a b : List Nat) : Bool :=
  if a.length ≠ b.length then false
  else
    let p := extract a
    let q := extract b
    decide ({ p with id := q.id, from_ := q.from_ } = q)

/-- Construction of a Message from a name plus separate data, to, from and
flags: Message._from_data followed by Message._check, as Message.init does
on the name path. -/
def encode (name : List Nat) (data : MData) (to_ from_ flags : Nat) :
    Except CodecError (List Nat) :=
  match fromData name data to_ from_ flags with
  | .error e => .error e
  | .ok a =>
      match check a with
      | .error e => .error e
      | .ok _ => .ok a

/-- The test in Message.init for a string argument that looks like a
message name: startswith on the two bytes of the dollar-dot sentinel. -/
def startsDollarDot (s : List Nat) : Bool := s.take 2 == [36, 46]

/-- Construction of a Message from an already-encoded byte string: the
array constructor (which raises when the byte count is not a multiple of
4) followed by Message._check, as Message.init does on the frame path. -/
def decodeBytes (s : List Nat) : Except CodecError (List Nat) :=
  if s.length % 4 = 0 then
    match check (bytesToWords s) with
    | .error e => .error e
    | .ok _ => .ok (bytesToWords s)
  else .error .InvalidArg

/-- The dispatch of Message.init on a string first argument: a string
beginning with the dollar-dot sentinel is a message name and goes through
_from_data, any other non-empty string is assumed to be sensible encoded
data and is only checked, and an empty string raises ValueError. -/
def messageFromStr (s : List Nat) (data : MData) (to_ from_ flags : Nat) :
    Except CodecError (List Nat) :=
  if startsDollarDot s then encode s data to_ from_ flags
  else if s.isEmpty then .error .InvalidArg
  else decodeBytes s

/-- Decoding a word buffer to its parts: Message._check followed by
Message.extract. -/
def decodeWords (a : List Nat) : Except CodecError Extracted :=
  match check a with
  | .error e => .error e
  | .ok _ => .ok (extract a)

/-!
The binding table, router, per-endpoint queues and id counter live in the
kbus kernel module, which is not part of this repository checkout; only
the tests driving it are (class TestKernelModule).  The definitions below
model that missing core.  The binding table and the error cases follow
the spec (sections 4.2, 4.3 and 6); the id-assignment policy of the
router follows the behaviour asserted by test_read_write_2files, which
pins it down where the spec text disagrees (see claim C1).
-/

inductive BusError where
  | InvalidArgument
  | AddressInUse
  | AddressNotAvailable
deriving DecidableEq

/-- Modelled from the spec: a Binding is the tuple
(endpoint id, name, is_replier, is_guaranteed). -/
structure Binding where
  endpoint : Nat
  name : List Nat
  is_replier : Bool
  is_guaranteed : Bool
deriving DecidableEq

/-- Whether a replier Binding already exists for exactly this name. -/
def hasReplier (nm : List Nat) (t : List Binding) : Bool :=
  t.any (fun b => b.name == nm && b.is_replier)

/-- Modelled from the spec: BindingTable.bind fails InvalidArgument on an
empty name, fails AddressInUse when a replier is requested and a replier
Binding already exists for that exact name, and otherwise inserts the
Binding (at the end, in insertion order). -/
def bindB (t : List Binding) (e : Nat) (nm : List Nat) (rep g : Bool) :
    Except BusError (List Binding) :=
  if nm.isEmpty then .error .InvalidArgument
  else if rep && hasReplier nm t then .error .AddressInUse
  else .ok (t ++ [⟨e, nm, rep, g⟩])

/-- Exact four-field equality test used by unbind. -/
def bmatches (e : Nat) (nm : List Nat) (rep g : Bool) (b : Binding) : Bool :=
  b.endpoint == e && b.name == nm && b.is_replier == rep && b.is_guaranteed == g

/-- Removal of the first element satisfying a test, leaving the rest. -/
def removeFirst (p : Binding → Bool) : List Binding → List Binding
  | [] => []
  | b :: rest => if p b then rest else b :: removeFirst p rest

/-- Modelled from the spec: BindingTable.unbind removes exactly one
Binding matching all four fields, the first in insertion order; when none
match it fails InvalidArgument and leaves the table unchanged. -/
def unbindB (t : List Binding) (e : Nat) (nm : List Nat) (rep g : Bool) :
    Except BusError (List Binding) :=
  if t.any (bmatches e nm rep g) then .ok (removeFirst (bmatches e nm rep g) t)
  else .error .InvalidArgument

/-- Modelled from the spec: the Bus aggregates the binding table, the
per-endpoint FIFO queues of encoded frames, and the message-id counter
(holding the last id assigned; ids start from 1, never 0). -/
structure Bus where
  table : List Binding
  queues : Nat → List (List Nat)
  counter : Nat

/-- The Router fills in the id and from words of the encoded frame
(words 1 and 3) before delivery. -/
def setIdFrom (frame : List Nat) (newId fromE : Nat) : List Nat :=
  (frame.set 1 newId).set 3 fromE

/-- Append one encoded frame at the tail of one endpoint queue. -/
def pushQ (qs : Nat → List (List Nat)) (e : Nat) (m : List Nat) :
    Nat → List (List Nat) :=
  fun x => if x = e then qs e ++ [m] else qs x

/-- Modelled from the spec: the destination resolution of the Router,
every Binding whose name exactly equals the message name (replier or
listener alike), in insertion order. -/
def matchB (nm : List Nat) (t : List Binding) : List Binding :=
  t.filter (fun b => b.name == nm)

/-- Modelled from the spec and from test_read_write_2files: the fan-out
loop of the Router.  Each matching Binding receives its own copy of the
frame, stamped with its own freshly incremented id and with the sender as
from, pushed at the tail of that Binding's endpoint queue, in binding
order.  (test_read_write_2files asserts that one write matched by three
bindings yields ids N, N+1, N+2 in the reader's queue.) -/
def deliver (sender : Nat) (frame : List Nat) : List Binding → Bus → Bus
  | [], bus => bus
  | b :: rest, bus =>
      deliver sender frame rest
        { table := bus.table
          queues := pushQ bus.queues b.endpoint
                      (setIdFrom frame (bus.counter + 1) sender)
          counter := bus.counter + 1 }

/-- Modelled from the spec: Router.route for an already-encoded frame.
When no Binding matches the message name it fails AddressNotAvailable and
returns the Bus untouched (no id consumed, no queue modified); otherwise
it fans the frame out to every matching Binding. -/
def send (bus : Bus) (sender : Nat) (frame : List Nat) :
    Except BusError Unit × Bus :=
  let dests := matchB (extract frame).name bus.table
  if dests.isEmpty then (.error .AddressNotAvailable, bus)
  else (.ok (), deliver sender frame dests bus)

/-- The per-binding stamped copies a fan-out produces: for each matching
Binding in order, the pair of its endpoint and the frame stamped with the
next id.  start is the counter value before the fan-out. -/
def stampAll (sender : Nat) (frame : List Nat) (start : Nat) :
    List Binding → List (Nat × List Nat)
  | [] => []
  | b :: rest =>
      (b.endpoint, setIdFrom frame (start + 1) sender)
        :: stampAll sender frame (start + 1) rest

/-- Number of Bindings matching all four fields. -/
def countMatches (p : Binding → Bool) (t : List Binding) : Nat :=
  (t.filter p).length

/-- Iterated unbind with fixed arguments, stopping at the first failure. -/
def unbindN (n : Nat) (t : List Binding) (e : Nat) (nm : List Nat) (rep g : Bool) :
    Except BusError (List Binding) :=
  match n with
  | 0 => .ok t
  | n + 1 =>
      match unbindB t e nm rep g with
      | .error err => .error err
      | .ok t2 => unbindN n t2 e nm rep g

/-- Iterated bind with fixed arguments, stopping at the first failure. -/
def bindN (n : Nat) (t : List Binding) (e : Nat) (nm : List Nat) (rep g : Bool) :
    Except BusError (List Binding) :=
  match n with
  | 0 => .ok t
  | n + 1 =>
      match bindB t e nm rep g with
      | .error err => .error err
      | .ok t2 => bindN n t2 e nm rep g

/-- A binding table in which every Binding has a non-empty name; every
table reachable through bind is of this shape, since bind rejects empty
names. -/
def wfTable (t : List Binding) : Prop := ∀ b ∈ t, b.name ≠ []

/-- The single-replier invariant: for any exact name, at most one Binding
is a replier. -/
def atMostOneReplier (t : List Binding) : Prop :=
  ∀ nm : List Nat, countMatches (fun b => b.name == nm && b.is_replier) t ≤ 1

/-- Decidable equality of results, so that concrete runs of the codec and
the bus can be settled by evaluation. -/
instance {ε α : Type} [DecidableEq ε] [DecidableEq α] : DecidableEq (Except ε α) :=
  fun a b =>
    match a, b with
    | .ok x, .ok y =>
        if h : x = y then isTrue (congrArg Except.ok h)
        else isFalse (fun he => h (Except.ok.inj he))
    | .error x, .error y =>
        if h : x = y then isTrue (congrArg Except.error h)
        else isFalse (fun he => h (Except.error.inj he))
    | .ok _, .error _ => isFalse (fun he => Except.noConfusion he)
    | .error _, .ok _ => isFalse (fun he => Except.noConfusion he)

/-! Helper lemmas about the byte and word conversions. -/

lemma bytesToWords_length : ∀ l : List Nat, (bytesToWords l).length = l.length / 4
  | [] => rfl
  | [_] => by simp [bytesToWords]
  | [_, _] => by simp [bytesToWords]
  | [_, _, _] => by simp [bytesToWords]
  | _ :: _ :: _ :: _ :: rest => by
      simp [bytesToWords, bytesToWords_length rest]
      omega

lemma wordsToBytes_bytesToWords : ∀ bs : List Nat, bs.length % 4 = 0 →
    (∀ b ∈ bs, b < 256) → wordsToBytes (bytesToWords bs) = bs
  | [], _, _ => rfl
  | [_], h4, _ => by simp at h4
  | [_, _], h4, _ => by simp at h4
  | [_, _, _], h4, _ => by simp at h4
  | b0 :: b1 :: b2 :: b3 :: rest, h4, hb => by
      have h0 : b0 < 256 := hb b0 (by simp)
      have h1 : b1 < 256 := hb b1 (by simp)
      have h2 : b2 < 256 := hb b2 (by simp)
      have h3 : b3 < 256 := hb b3 (by simp)
      have hr : wordsToBytes (bytesToWords rest) = rest :=
        wordsToBytes_bytesToWords rest (by simp at h4; omega)
          (fun b hbm => hb b (by simp [hbm]))
      simp [bytesToWords, wordsToBytes, hr]
      omega

lemma padTo4_length_mod (name : List Nat) : (padTo4 name).length % 4 = 0 := by
  simp [padTo4]
  omega

lemma padTo4_words_length (name : List Nat) :
    (bytesToWords (padTo4 name)).length = (name.length + 3) / 4 := by
  rw [bytesToWords_length]
  simp [padTo4]
  omega

lemma padTo4_bytes_lt (name : List Nat) (h : ∀ b ∈ name, b < 256) :
    ∀ b ∈ padTo4 name, b < 256 := by
  intro b hb
  rcases List.mem_append.1 hb with h1 | h2
  · exact h b h1
  · rcases List.mem_replicate.1 h2 with ⟨-, rfl⟩
    omega

lemma padTo4_take (name : List Nat) : (padTo4 name).take name.length = name :=
  List.take_left' rfl

/-! Helper lemmas about the shape of an encoded frame. -/

lemma check_frame_general (name ws : List Nat) (to_ from_ flags : Nat) :
    check (START_GUARD :: 0 :: to_ :: from_ :: flags :: name.length :: ws.length
            :: (bytesToWords (padTo4 name) ++ ws ++ [END_GUARD])) =
      if name.length < 3 then .error .InvalidName else .ok () := by
  have hlast2 : (ws.length :: (bytesToWords (padTo4 name) ++ (ws ++ [END_GUARD]))).getLast?
      = some END_GUARD := by
    have he : ws.length :: (bytesToWords (padTo4 name) ++ (ws ++ [END_GUARD]))
        = (ws.length :: (bytesToWords (padTo4 name) ++ ws)) ++ [END_GUARD] := by
      simp
    rw [he, List.getLast?_concat]
  by_cases h3 : name.length < 3
  · simp [check, padTo4_words_length, List.getD_cons_succ, List.getD_cons_zero, h3]
    rw [if_pos hlast2, if_neg (by omega)]
  · simp [check, padTo4_words_length, List.getD_cons_succ, List.getD_cons_zero, h3]
    rw [if_pos hlast2, if_neg (by omega), if_pos (by omega)]

lemma extract_frame (name ws : List Nat) (to_ from_ flags : Nat) :
    extract (START_GUARD :: 0 :: to_ :: from_ :: flags :: name.length :: ws.length
              :: (bytesToWords (padTo4 name) ++ ws ++ [END_GUARD])) =
      ⟨0, to_, from_, flags,
        (wordsToBytes (bytesToWords (padTo4 name))).take name.length, ws⟩ := by
  unfold extract
  have hdrop : (START_GUARD :: 0 :: to_ :: from_ :: flags :: name.length :: ws.length
      :: (bytesToWords (padTo4 name) ++ ws ++ [END_GUARD])).drop 7
      = bytesToWords (padTo4 name) ++ (ws ++ [END_GUARD]) := by
    simp
  have hname : (bytesToWords (padTo4 name) ++ (ws ++ [END_GUARD])).take
      ((name.length + 3) / 4) = bytesToWords (padTo4 name) :=
    List.take_left' (padTo4_words_length name)
  have hdata : (START_GUARD :: 0 :: to_ :: from_ :: flags :: name.length :: ws.length
      :: (bytesToWords (padTo4 name) ++ ws ++ [END_GUARD])).drop
        (7 + (name.length + 3) / 4) = ws ++ [END_GUARD] := by
    rw [← List.drop_drop, hdrop, List.drop_left' (padTo4_words_length name)]
  simp only [List.getD_cons_succ, List.getD_cons_zero]
  rw [hdrop, hname, hdata, List.take_left' rfl]

lemma encode_ok (name : List Nat) (data : MData) (ws : List Nat) (to_ from_ flags : Nat)
    (hd : dataToWords data = .ok ws) (h3 : 3 ≤ name.length)
    (ht : to_ < 4294967296) (hf : from_ < 4294967296) (hg : flags < 4294967296) :
    encode name data to_ from_ flags =
      .ok (START_GUARD :: 0 :: to_ :: from_ :: flags :: name.length :: ws.length
            :: (bytesToWords (padTo4 name) ++ ws ++ [END_GUARD])) := by
  unfold encode fromData
  rw [if_pos ⟨ht, hf, hg⟩, hd]
  have hc := check_frame_general name ws to_ from_ flags
  rw [if_neg (by omega)] at hc
  simp only [List.cons_append, List.nil_append]
  rw [hc]

/-! The claims. -/

/-- Claim C2: for every name of at least 3 bytes starting with the
required dollar-dot sentinel, every payload whose byte length is a
multiple of 4, and every 32-bit to, from and flags, decoding the frame
produced by encoding reproduces name, payload, to, from and flags
exactly (the id comes back as its placeholder 0, to be assigned by the
bus). -/
theorem claim_C2_roundtrip (name pl : List Nat) (to_ from_ flags : Nat)
    (hpre : startsDollarDot name = true) (h3 : 3 ≤ name.length)
    (hnb : ∀ b ∈ name, b < 256) (hp4 : pl.length % 4 = 0)
    (hpb : ∀ b ∈ pl, b < 256)
    (ht : to_ < 4294967296) (hf : from_ < 4294967296) (hg : flags < 4294967296) :
    ∃ frame, messageFromStr name (.bytes pl) to_ from_ flags = .ok frame ∧
      decodeWords frame = .ok ⟨0, to_, from_, flags, name, bytesToWords pl⟩ ∧
      wordsToBytes (bytesToWords pl) = pl := by
  have hd : dataToWords (.bytes pl) = .ok (bytesToWords pl) := by
    simp [dataToWords, hp4]
  have henc := encode_ok name (.bytes pl) (bytesToWords pl) to_ from_ flags hd h3 ht hf hg
  have hc := check_frame_general name (bytesToWords pl) to_ from_ flags
  rw [if_neg (by omega)] at hc
  have hx := extract_frame name (bytesToWords pl) to_ from_ flags
  have hpad : wordsToBytes (bytesToWords (padTo4 name)) = padTo4 name :=
    wordsToBytes_bytesToWords (padTo4 name) (padTo4_length_mod name)
      (padTo4_bytes_lt name hnb)
  rw [hpad, padTo4_take] at hx
  have hmsg : messageFromStr name (.bytes pl) to_ from_ flags
      = encode name (.bytes pl) to_ from_ flags := by
    unfold messageFromStr
    rw [if_pos hpre]
  refine ⟨_, hmsg.trans henc, ?_, wordsToBytes_bytesToWords pl hp4 hpb⟩
  unfold decodeWords
  rw [hc, hx]

/-- Claim C6: every successfully encoded frame opens and closes with the
fixed sentinel guards, its total word count is
8 + ceil(name_len_bytes / 4) + payload_len_words, and it consists of the
seven header words, the name zero-padded to a word boundary, the payload
words and the end guard, in that order. -/
theorem claim_C6_frame_shape (name : List Nat) (data : MData) (to_ from_ flags : Nat)
    (frame : List Nat) (h : encode name data to_ from_ flags = .ok frame) :
    ∃ ws, dataToWords data = .ok ws ∧
      frame.head? = some START_GUARD ∧ frame.getLast? = some END_GUARD ∧
      frame.length = 8 + (name.length + 3) / 4 + ws.length ∧
      frame = [START_GUARD, 0, to_, from_, flags, name.length, ws.length]
        ++ bytesToWords (name ++ List.replicate ((4 - name.length % 4) % 4) 0)
        ++ ws ++ [END_GUARD] := by
  unfold encode fromData at h
  by_cases hr : to_ < 4294967296 ∧ from_ < 4294967296 ∧ flags < 4294967296
  · rw [if_pos hr] at h
    cases hd : dataToWords data with
    | error e =>
        rw [hd] at h
        simp at h
    | ok ws =>
        rw [hd] at h
        simp only [List.cons_append, List.nil_append] at h
        have hc := check_frame_general name ws to_ from_ flags
        by_cases h3 : name.length < 3
        · rw [if_pos h3] at hc
          rw [hc] at h
          simp at h
        · rw [if_neg h3] at hc
          rw [hc] at h
          simp only [Except.ok.injEq] at h
          subst h
          refine ⟨ws, rfl, rfl, ?_, ?_, ?_⟩
          · have he : (START_GUARD :: 0 :: to_ :: from_ :: flags :: name.length :: ws.length
                :: (bytesToWords (padTo4 name) ++ ws ++ [END_GUARD]))
                = (START_GUARD :: 0 :: to_ :: from_ :: flags :: name.length :: ws.length
                    :: (bytesToWords (padTo4 name) ++ ws)) ++ [END_GUARD] := by
              simp
            rw [he, List.getLast?_concat]
          · simp [padTo4_words_length]
            omega
          · simp [padTo4]
  · rw [if_neg hr] at h
    simp at h

/-- Claim C7 counterexample: the claim says a name that does not begin
with the required dollar-dot sentinel is rejected with InvalidName.  In
the code such a string is never treated as a name at all: constructing a
Message from the string "abcd" (bytes 97 98 99 100) fails with
CorruptMessage, not InvalidName, and constructing one from the byte
rendering of a valid frame (which equally lacks the sentinel) succeeds
outright. -/
theorem claim_C7_counterexample :
    messageFromStr [97, 98, 99, 100] .noData 0 0 0 = .error .CorruptMessage ∧
    messageFromStr [97, 98, 99, 100] .noData 0 0 0 ≠ .error .InvalidName ∧
    messageFromStr [107, 98, 117, 115, 0, 0, 0, 0, 0, 0, 0, 0, 0, 0, 0, 0,
        0, 0, 0, 0, 3, 0, 0, 0, 0, 0, 0, 0, 36, 46, 66, 0, 115, 117, 98, 107]
        .noData 0 0 0 =
      .ok [1937072747, 0, 0, 0, 0, 3, 0, 4337188, 1801614707] := by
  refine ⟨by decide, by decide, by decide⟩

/-- Claim C7 (amended): for a name that does begin with the dollar-dot
sentinel and 32-bit to, from and flags, message construction fails with
InvalidName when the name is shorter than 3 bytes (given a convertible
payload), fails with InvalidPayload when the payload byte length is not a
multiple of 4, and succeeds whenever the name is at least 3 bytes long
and the payload byte length is a multiple of 4.  A string without the
sentinel is not routed through these name checks at all (see the
counterexample and claim C10). -/
theorem claim_C7_amended (name pl : List Nat) (to_ from_ flags : Nat)
    (hpre : startsDollarDot name = true)
    (ht : to_ < 4294967296) (hf : from_ < 4294967296) (hg : flags < 4294967296) :
    (pl.length % 4 = 0 → name.length < 3 →
      messageFromStr name (.bytes pl) to_ from_ flags = .error .InvalidName) ∧
    (pl.length % 4 ≠ 0 →
      messageFromStr name (.bytes pl) to_ from_ flags = .error .InvalidPayload) ∧
    (3 ≤ name.length → pl.length % 4 = 0 →
      ∃ frame, messageFromStr name (.bytes pl) to_ from_ flags = .ok frame) := by
  refine ⟨?_, ?_, ?_⟩
  · intro hp4 h3
    have hd : dataToWords (.bytes pl) = .ok (bytesToWords pl) := by
      simp [dataToWords, hp4]
    have hc := check_frame_general name (bytesToWords pl) to_ from_ flags
    rw [if_pos h3] at hc
    unfold messageFromStr
    rw [if_pos hpre]
    unfold encode fromData
    rw [if_pos ⟨ht, hf, hg⟩, hd]
    simp only [List.cons_append, List.nil_append]
    rw [hc]
  · intro hp4
    have hd : dataToWords (.bytes pl) = .error .InvalidPayload := by
      simp [dataToWords, hp4]
    unfold messageFromStr
    rw [if_pos hpre]
    unfold encode fromData
    rw [if_pos ⟨ht, hf, hg⟩, hd]
  · intro h3 hp4
    have hd : dataToWords (.bytes pl) = .ok (bytesToWords pl) := by
      simp [dataToWords, hp4]
    have hmsg : messageFromStr name (.bytes pl) to_ from_ flags
        = encode name (.bytes pl) to_ from_ flags := by
      unfold messageFromStr
      rw [if_pos hpre]
    exact ⟨_, hmsg.trans
      (encode_ok name (.bytes pl) (bytesToWords pl) to_ from_ flags hd h3 ht hf hg)⟩

/-- Restatement of check with its local bindings expanded (definitional). -/
lemma check_eq (a : List Nat) : check a =
    if a.head? ≠ some START_GUARD then .error .CorruptMessage
    else if a.getLast? ≠ some END_GUARD then .error .CorruptMessage
    else if a.length < 7 then .error .CorruptMessage
    else if a.getD 5 0 < 3 then .error .InvalidName
    else if 8 + (a.getD 5 0 + 3) / 4 + a.getD 6 0 ≠ a.length then .error .CorruptMessage
    else .ok () := rfl

/-- Claim C8: decoding a word buffer fails with CorruptMessage when
either guard word differs from its sentinel; when the guards are in place
and the declared name length is at least 3 but the declared lengths do
not account for the total word count it also fails with CorruptMessage;
and when the buffer holds the full seven-word header with guards in place
but the declared name length is below the 3-byte minimum it fails with
InvalidName. -/
theorem claim_C8_decode_errors (a : List Nat) :
    ((a.head? ≠ some START_GUARD ∨ a.getLast? ≠ some END_GUARD) →
      decodeWords a = .error .CorruptMessage) ∧
    (a.head? = some START_GUARD → a.getLast? = some END_GUARD →
      3 ≤ a.getD 5 0 → 8 + (a.getD 5 0 + 3) / 4 + a.getD 6 0 ≠ a.length →
      decodeWords a = .error .CorruptMessage) ∧
    (a.head? = some START_GUARD → a.getLast? = some END_GUARD → 7 ≤ a.length →
      a.getD 5 0 < 3 → decodeWords a = .error .InvalidName) := by
  refine ⟨?_, ?_, ?_⟩
  · intro h
    have hc : check a = .error .CorruptMessage := by
      rw [check_eq]
      by_cases h1 : a.head? ≠ some START_GUARD
      · rw [if_pos h1]
      · rw [if_neg h1, if_pos (h.resolve_left h1)]
    simp [decodeWords, hc]
  · intro h1 h2 h3 hne
    have hc : check a = .error .CorruptMessage := by
      rw [check_eq, if_neg (not_not_intro h1), if_neg (not_not_intro h2)]
      by_cases hlen : a.length < 7
      · rw [if_pos hlen]
      · rw [if_neg hlen, if_neg (by omega), if_pos hne]
    simp [decodeWords, hc]
  · intro h1 h2 hlen h3
    have hc : check a = .error .InvalidName := by
      rw [check_eq, if_neg (not_not_intro h1), if_neg (not_not_intro h2),
        if_neg (by omega), if_pos h3]
    simp [decodeWords, hc]

/-- Restatement of extract with its local bindings expanded
(definitional). -/
lemma extract_eq (a : List Nat) : extract a =
    { id := a.getD 1 0
      to_ := a.getD 2 0
      from_ := a.getD 3 0
      flags := a.getD 4 0
      name := (wordsToBytes ((a.drop 7).take ((a.getD 5 0 + 3) / 4))).take (a.getD 5 0)
      dataArr := (a.drop (7 + (a.getD 5 0 + 3) / 4)).take (a.getD 6 0) } := rfl

lemma getD_set_ne (l : List Nat) (i v j : Nat) (h : i ≠ j) :
    (l.set i v).getD j 0 = l.getD j 0 := by
  simp [List.getD_eq_getElem?_getD, List.getElem?_set_ne h]

lemma drop_set_of_lt (l : List Nat) (i v n : Nat) (h : i < n) :
    (l.set i v).drop n = l.drop n := by
  induction l generalizing i n with
  | nil => rfl
  | cons x xs ih =>
      cases i with
      | zero =>
          cases n with
          | zero => omega
          | succ m => rfl
      | succ k =>
          cases n with
          | zero => omega
          | succ m =>
              show (xs.set k v).drop m = xs.drop m
              exact ih k m (by omega)

/-- The fields of extract other than id and from are untouched when the
Router stamps a frame. -/
lemma extract_setIdFrom (a : List Nat) (i s : Nat) :
    (extract (setIdFrom a i s)).to_ = (extract a).to_ ∧
    (extract (setIdFrom a i s)).flags = (extract a).flags ∧
    (extract (setIdFrom a i s)).name = (extract a).name ∧
    (extract (setIdFrom a i s)).dataArr = (extract a).dataArr := by
  have hgd : ∀ j, j ≠ 1 → j ≠ 3 → (setIdFrom a i s).getD j 0 = a.getD j 0 := by
    intro j hj1 hj3
    unfold setIdFrom
    rw [getD_set_ne _ _ _ _ (by omega), getD_set_ne _ _ _ _ (by omega)]
  have hdr : ∀ n, 7 ≤ n → (setIdFrom a i s).drop n = a.drop n := by
    intro n hn
    unfold setIdFrom
    rw [drop_set_of_lt _ _ _ _ (by omega), drop_set_of_lt _ _ _ _ (by omega)]
  rw [extract_eq, extract_eq, hgd 2 (by omega) (by omega), hgd 4 (by omega) (by omega),
    hgd 5 (by omega) (by omega), hgd 6 (by omega) (by omega), hdr 7 (by omega),
    hdr (7 + (a.getD 5 0 + 3) / 4) (by omega)]
  exact ⟨rfl, rfl, rfl, rfl⟩

/-- The overwrite comparison inside equivalent, expressed field by
field. -/
lemma update_eq_iff (p q : Extracted) :
    ({ p with id := q.id, from_ := q.from_ } = q) ↔
      (p.to_ = q.to_ ∧ p.flags = q.flags ∧ p.name = q.name ∧ p.dataArr = q.dataArr) := by
  cases p
  cases q
  simp [Extracted.mk.injEq]

/-- Claim C9: equivalent is true exactly when the two frames have the
same encoded length and agree on to, flags, name and payload, id and from
being ignored; consequently a frame stamped by the Router, which rewrites
only the id and from words, stays equivalent to the frame that was
written. -/
theorem claim_C9_equivalent (a b : List Nat) :
    (equivalent a b = true ↔
      a.length = b.length ∧ (extract a).to_ = (extract b).to_ ∧
      (extract a).flags = (extract b).flags ∧
      (extract a).name = (extract b).name ∧
      (extract a).dataArr = (extract b).dataArr) ∧
    ∀ i s, equivalent a (setIdFrom a i s) = true := by
  constructor
  · unfold equivalent
    by_cases hl : a.length = b.length
    · rw [if_neg (not_not_intro hl), decide_eq_true_eq, update_eq_iff]
      simp [hl]
    · rw [if_pos hl]
      simp [hl]
  · intro i s
    have hlen : a.length = (setIdFrom a i s).length := by
      simp [setIdFrom]
    have hfields := extract_setIdFrom a i s
    unfold equivalent
    rw [if_neg (not_not_intro hlen), decide_eq_true_eq, update_eq_iff]
    exact ⟨hfields.1.symm, hfields.2.1.symm, hfields.2.2.1.symm, hfields.2.2.2.symm⟩

/-- Claim C10: Message construction dispatches on the shape of its string
argument: a string beginning with the dollar-dot sentinel is treated as a
message name together with the separate data, to, from and flags
arguments, and every other non-empty string is interpreted as an
already-encoded frame and only validated against the frame invariant; in
particular such a string can be accepted outright rather than rejected as
an invalid name. -/
theorem claim_C10_dispatch (s : List Nat) (data : MData) (to_ from_ flags : Nat) :
    (startsDollarDot s = true →
      messageFromStr s data to_ from_ flags = encode s data to_ from_ flags) ∧
    (startsDollarDot s = false → s ≠ [] →
      messageFromStr s data to_ from_ flags = decodeBytes s) ∧
    ∃ s0 f0, startsDollarDot s0 = false ∧ s0 ≠ [] ∧
      messageFromStr s0 .noData 0 0 0 = .ok f0 := by
  refine ⟨?_, ?_, ?_⟩
  · intro h
    unfold messageFromStr
    rw [if_pos h]
  · intro h hne
    unfold messageFromStr
    rw [if_neg (by simp [h]), if_neg (by simp [List.isEmpty_iff, hne])]
  · refine ⟨[107, 98, 117, 115, 0, 0, 0, 0, 0, 0, 0, 0, 0, 0, 0, 0,
        0, 0, 0, 0, 3, 0, 0, 0, 0, 0, 0, 0, 36, 46, 66, 0, 115, 117, 98, 107],
      [1937072747, 0, 0, 0, 0, 3, 0, 4337188, 1801614707], by decide, by decide, by decide⟩

/-! Helper lemmas about the binding table and the router. -/

lemma hasReplier_iff (nm : List Nat) (t : List Binding) :
    hasReplier nm t = true ↔ ∃ b ∈ t, b.name = nm ∧ b.is_replier = true := by
  simp [hasReplier, List.any_eq_true]

lemma countMatches_append (p : Binding → Bool) (t1 t2 : List Binding) :
    countMatches p (t1 ++ t2) = countMatches p t1 + countMatches p t2 := by
  simp [countMatches, List.filter_append]

lemma hasReplier_false_count (nm : List Nat) (t : List Binding)
    (h : hasReplier nm t = false) :
    countMatches (fun b => b.name == nm && b.is_replier) t = 0 := by
  rw [countMatches, List.length_eq_zero, List.filter_eq_nil_iff]
  intro b hb hp
  rw [← Bool.not_eq_true, hasReplier, List.any_eq_true] at h
  exact h ⟨b, hb, hp⟩

lemma removeFirst_append (p : Binding → Bool) (t l : List Binding) (b : Binding)
    (ht : ∀ x ∈ t, p x = false) (hb : p b = true) :
    removeFirst p (t ++ b :: l) = t ++ l := by
  induction t with
  | nil => simp [removeFirst, hb]
  | cons x xs ih =>
      have hx : p x = false := ht x (by simp)
      simp only [List.cons_append, removeFirst, hx]
      simp [ih (fun y hy => ht y (by simp [hy]))]

lemma bindN_listener (e : Nat) (nm : List Nat) (g : Bool) (hne : nm ≠ []) :
    ∀ (n : Nat) (t : List Binding),
      bindN n t e nm false g = .ok (t ++ List.replicate n ⟨e, nm, false, g⟩)
  | 0, t => by simp [bindN]
  | n + 1, t => by
      have hbind : bindB t e nm false g = .ok (t ++ [⟨e, nm, false, g⟩]) := by
        unfold bindB
        rw [if_neg (by simp [List.isEmpty_iff, hne]), if_neg (by simp)]
      have ih := bindN_listener e nm g hne n (t ++ [⟨e, nm, false, g⟩])
      simp [bindN, hbind, ih, List.replicate_succ]

lemma deliver_props (sender : Nat) (frame : List Nat) :
    ∀ (ms : List Binding) (bus : Bus),
      (deliver sender frame ms bus).counter = bus.counter + ms.length ∧
      (deliver sender frame ms bus).table = bus.table ∧
      ∀ e, (deliver sender frame ms bus).queues e = bus.queues e ++
        ((stampAll sender frame bus.counter ms).filter
          (fun q => q.1 == e)).map Prod.snd
  | [], bus => by simp [deliver, stampAll]
  | b :: rest, bus => by
      have ih := deliver_props sender frame rest
        { table := bus.table
          queues := pushQ bus.queues b.endpoint (setIdFrom frame (bus.counter + 1) sender)
          counter := bus.counter + 1 }
      simp only [deliver]
      refine ⟨?_, ?_, ?_⟩
      · rw [ih.1]
        simp
        omega
      · exact ih.2.1
      · intro e
        rw [ih.2.2 e]
        simp only [stampAll, List.filter_cons]
        by_cases he : b.endpoint = e
        · rw [if_pos (by simp [he])]
          have hq : pushQ bus.queues b.endpoint
              (setIdFrom frame (bus.counter + 1) sender) e
              = bus.queues e ++ [setIdFrom frame (bus.counter + 1) sender] := by
            simp [pushQ, he]
          rw [hq, List.append_assoc]
          simp
        · rw [if_neg (by simp [he])]
          have hq : pushQ bus.queues b.endpoint
              (setIdFrom frame (bus.counter + 1) sender) e = bus.queues e := by
            simp [pushQ, (show ¬(e = b.endpoint) from fun hx => he hx.symm)]
          rw [hq]

/-- Claim C3: on any well-formed binding table (every bound name
non-empty, as bind itself guarantees), a replier bind fails AddressInUse
exactly when a replier Binding already exists for exactly that name; any
successful bind preserves the at-most-one-replier-per-name invariant
across the whole table; and a listener bind for a non-empty name always
succeeds, duplicates included. -/
theorem claim_C3_replier_exclusion (t : List Binding) (e : Nat) (nm : List Nat)
    (g : Bool) (hwf : wfTable t) :
    (bindB t e nm true g = .error .AddressInUse ↔
      ∃ b ∈ t, b.name = nm ∧ b.is_replier = true) ∧
    (∀ rep t2, atMostOneReplier t → bindB t e nm rep g = .ok t2 →
      atMostOneReplier t2) ∧
    (nm ≠ [] → bindB t e nm false g = .ok (t ++ [⟨e, nm, false, g⟩])) := by
  refine ⟨?_, ?_, ?_⟩
  · by_cases hemp : nm = []
    · subst hemp
      unfold bindB
      rw [if_pos (by simp)]
      constructor
      · intro hx
        simp at hx
      · rintro ⟨b, hb, hname, -⟩
        exact absurd hname (hwf b hb)
    · unfold bindB
      rw [if_neg (by simp [List.isEmpty_iff, hemp])]
      by_cases hr : hasReplier nm t = true
      · rw [if_pos (by simp [hr])]
        exact ⟨fun _ => (hasReplier_iff nm t).mp hr, fun _ => rfl⟩
      · rw [if_neg (by simp [hr])]
        constructor
        · intro hx
          simp at hx
        · intro hex
          exact absurd ((hasReplier_iff nm t).mpr hex) hr
  · intro rep t2 hone hok
    unfold bindB at hok
    by_cases hemp : nm.isEmpty
    · rw [if_pos hemp] at hok
      simp at hok
    · rw [if_neg hemp] at hok
      by_cases hc : (rep && hasReplier nm t) = true
      · rw [if_pos hc] at hok
        simp at hok
      · rw [if_neg hc] at hok
        simp only [Except.ok.injEq] at hok
        subst hok
        intro nm2
        rw [countMatches_append]
        cases hrep : rep with
        | false =>
            subst hrep
            have hz : countMatches (fun b => b.name == nm2 && b.is_replier)
                [⟨e, nm, false, g⟩] = 0 := by
              simp [countMatches]
            rw [hz]
            simpa using hone nm2
        | true =>
            subst hrep
            have hnr : hasReplier nm t = false := by
              cases h2 : hasReplier nm t
              · rfl
              · simp [h2] at hc
            by_cases hnm : nm2 = nm
            · subst hnm
              have h0 : countMatches (fun b => b.name == nm2 && b.is_replier) t = 0 :=
                hasReplier_false_count nm2 t hnr
              have h1 : countMatches (fun b => b.name == nm2 && b.is_replier)
                  [⟨e, nm2, true, g⟩] = 1 := by
                simp [countMatches]
              omega
            · have hz : countMatches (fun b => b.name == nm2 && b.is_replier)
                  [⟨e, nm, true, g⟩] = 0 := by
                simp [countMatches, (show ¬nm = nm2 from fun hx => hnm hx.symm)]
              rw [hz]
              simpa using hone nm2
  · intro hne
    unfold bindB
    rw [if_neg (by simp [List.isEmpty_iff, hne]), if_neg (by simp)]

/-- Claim C4: sending a frame whose name matches no Binding fails with
AddressNotAvailable and has no side effects: the Bus comes back exactly
as it was (same table, same id counter, same queues), and a subsequent
send behaves exactly as if the failed send had never happened — in
particular the next successful send is assigned the very id the failed
one would have received. -/
theorem claim_C4_no_listener (bus : Bus) (sender : Nat) (frame : List Nat)
    (h : matchB (extract frame).name bus.table = []) :
    send bus sender frame = (.error .AddressNotAvailable, bus) ∧
    ∀ sender2 frame2,
      send (send bus sender frame).2 sender2 frame2 = send bus sender2 frame2 := by
  have h1 : send bus sender frame = (.error .AddressNotAvailable, bus) := by
    simp [send, h]
  exact ⟨h1, fun s2 f2 => by rw [h1]⟩

/-- Claim C5: unbind with no Binding matching all four fields fails with
InvalidArgument; when Bindings match, exactly the first matching Binding
in insertion order is removed and the table shrinks by exactly one; and
after n identical listener binds on a table with no other match, exactly
n identical unbinds succeed, returning the table to its initial state,
while the (n+1)-th fails with InvalidArgument. -/
theorem claim_C5_unbind_exact (t : List Binding) (e : Nat) (nm : List Nat)
    (rep g : Bool) :
    (t.any (bmatches e nm rep g) = false →
      unbindB t e nm rep g = .error .InvalidArgument) ∧
    (∀ pre suf b, t = pre ++ b :: suf → bmatches e nm rep g b = true →
      (∀ x ∈ pre, bmatches e nm rep g x = false) →
      unbindB t e nm rep g = .ok (pre ++ suf) ∧
      (pre ++ suf).length + 1 = t.length) ∧
    (∀ n, (∀ x ∈ t, bmatches e nm rep g x = false) →
      unbindN n (t ++ List.replicate n ⟨e, nm, rep, g⟩) e nm rep g = .ok t ∧
      unbindB t e nm rep g = .error .InvalidArgument) ∧
    (∀ n, nm ≠ [] →
      bindN n t e nm false g = .ok (t ++ List.replicate n ⟨e, nm, false, g⟩)) := by
  refine ⟨?_, ?_, ?_, ?_⟩
  · intro h
    unfold unbindB
    rw [if_neg (by simp [h])]
  · intro pre suf b ht hb hpre
    subst ht
    have hany : (pre ++ b :: suf).any (bmatches e nm rep g) = true := by
      rw [List.any_eq_true]
      exact ⟨b, by simp, hb⟩
    unfold unbindB
    rw [if_pos hany, removeFirst_append _ _ _ _ hpre hb]
    refine ⟨rfl, by simp; omega⟩
  · intro n hall
    refine ⟨?_, ?_⟩
    · induction n with
      | zero => simp [unbindN]
      | succ m ih =>
          have hb : bmatches e nm rep g ⟨e, nm, rep, g⟩ = true := by
            simp [bmatches]
          have hu : unbindB (t ++ List.replicate (m + 1) ⟨e, nm, rep, g⟩) e nm rep g
              = .ok (t ++ List.replicate m ⟨e, nm, rep, g⟩) := by
            rw [List.replicate_succ]
            have hany : (t ++ (⟨e, nm, rep, g⟩ : Binding)
                :: List.replicate m (⟨e, nm, rep, g⟩ : Binding)).any
                (bmatches e nm rep g) = true := by
              rw [List.any_eq_true]
              exact ⟨(⟨e, nm, rep, g⟩ : Binding), by simp, hb⟩
            unfold unbindB
            rw [if_pos hany, removeFirst_append _ _ _ _ hall hb]
          simp [unbindN, hu, ih]
    · unfold unbindB
      rw [if_neg]
      intro hT
      rcases List.any_eq_true.mp hT with ⟨x, hx, hpx⟩
      rw [hall x hx] at hpx
      cases hpx
  · intro n hne
    exact bindN_listener e nm g hne n t

/-- The "$.Fred" name as bytes. -/
def fredName : List Nat := [36, 46, 70, 114, 101, 100]

/-- The Bus state test_read_write_2files sets up: endpoint 1 holds three
Bindings for "$.Fred" (one replier, two listeners) and endpoint 2 one
replier Binding for "$.Jim"; all queues empty, no id assigned yet. -/
def busC1 : Bus :=
  { table := [⟨1, fredName, true, false⟩, ⟨1, fredName, false, false⟩,
              ⟨1, fredName, false, false⟩, ⟨2, [36, 46, 74, 105, 109], true, false⟩]
    queues := fun _ => []
    counter := 0 }

/-- The encoded frame of the message named "$.Fred" with payload "data"
(the very word list the Message docstring exhibits). -/
def fredFrame : List Nat :=
  [1937072747, 0, 0, 0, 0, 6, 1, 1917201956, 25701, 1635017060, 1801614707]

/-- Claim C1 counterexample: with the bindings of test_read_write_2files
(three Bindings for "$.Fred", all on endpoint 1), one single send of the
"$.Fred" message enqueues three copies carrying the three distinct ids 1,
2 and 3, all into endpoint 1's one queue — not one message with a single
shared id into three queues.  This is exactly what the test asserts (ids
N, N+1, N+2 observed by three successive reads after one write). -/
theorem claim_C1_counterexample :
    ((send busC1 1 fredFrame).2.queues 1).map (fun m => m.getD 1 0) = [1, 2, 3] ∧
    ((send busC1 1 fredFrame).2.queues 1).length = 3 ∧
    (send busC1 1 fredFrame).2.queues 2 = [] ∧
    (send busC1 1 fredFrame).2.counter = 3 := by
  refine ⟨by decide, by decide, by decide, by decide⟩

/-- Claim C1 (amended): sending a frame whose name has k matching
Bindings (k ≥ 1) succeeds and enqueues k stamped copies, one per matching
Binding in binding-table order; the copies receive the k consecutive
fresh ids counter+1, ..., counter+k (so ids strictly increase within and
across successive sends), each copy is appended at the tail of its
Binding's endpoint queue in that same id order, and the binding table is
unchanged. -/
theorem claim_C1_amended (bus : Bus) (sender : Nat) (frame : List Nat)
    (h : matchB (extract frame).name bus.table ≠ []) :
    (send bus sender frame).1 = .ok () ∧
    (send bus sender frame).2.counter =
      bus.counter + (matchB (extract frame).name bus.table).length ∧
    (send bus sender frame).2.table = bus.table ∧
    ∀ e, (send bus sender frame).2.queues e = bus.queues e ++
      ((stampAll sender frame bus.counter
          (matchB (extract frame).name bus.table)).filter
        (fun q => q.1 == e)).map Prod.snd := by
  have hne : (matchB (extract frame).name bus.table).isEmpty = false := by
    simp [List.isEmpty_iff, h]
  have hd := deliver_props sender frame (matchB (extract frame).name bus.table) bus
  have hsend : send bus sender frame
      = (.ok (), deliver sender frame (matchB (extract frame).name bus.table) bus) := by
    simp [send, hne]
  rw [hsend]
  exact ⟨rfl, hd.1, hd.2.1, hd.2.2⟩

/-! Witnesses: each hypothesis-bearing claim theorem applied at a
concrete input. -/

/-- Witness for claim C2 at name "$.B" with payload "data". -/
theorem claim_C2_roundtrip_witness :
    ∃ frame, messageFromStr [36, 46, 66] (.bytes [100, 97, 116, 97]) 1 2 3
        = .ok frame ∧
      decodeWords frame
        = .ok ⟨0, 1, 2, 3, [36, 46, 66], bytesToWords [100, 97, 116, 97]⟩ ∧
      wordsToBytes (bytesToWords [100, 97, 116, 97]) = [100, 97, 116, 97] :=
  claim_C2_roundtrip [36, 46, 66] [100, 97, 116, 97] 1 2 3 (by decide) (by decide)
    (by decide) (by decide) (by decide) (by decide) (by decide) (by decide)

/-- Witness for claim C6 at the encoding of name "$.B" with payload
"data". -/
theorem claim_C6_frame_shape_witness :
    ∃ ws, dataToWords (.bytes [100, 97, 116, 97]) = .ok ws ∧
      ([1937072747, 0, 1, 2, 3, 3, 1, 4337188, 1635017060, 1801614707]
        : List Nat).head? = some START_GUARD ∧
      ([1937072747, 0, 1, 2, 3, 3, 1, 4337188, 1635017060, 1801614707]
        : List Nat).getLast? = some END_GUARD ∧
      ([1937072747, 0, 1, 2, 3, 3, 1, 4337188, 1635017060, 1801614707]
        : List Nat).length = 8 + (3 + 3) / 4 + ws.length ∧
      ([1937072747, 0, 1, 2, 3, 3, 1, 4337188, 1635017060, 1801614707] : List Nat)
        = [START_GUARD, 0, 1, 2, 3, 3, ws.length]
          ++ bytesToWords ([36, 46, 66] ++ List.replicate ((4 - 3 % 4) % 4) 0)
          ++ ws ++ [END_GUARD] :=
  claim_C6_frame_shape [36, 46, 66] (.bytes [100, 97, 116, 97]) 1 2 3
    [1937072747, 0, 1, 2, 3, 3, 1, 4337188, 1635017060, 1801614707] (by decide)

/-- Witness for the amended claim C7: the short name fails InvalidName,
the 3-byte payload fails InvalidPayload, the well-formed pair
succeeds. -/
theorem claim_C7_amended_witness :
    messageFromStr [36, 46] (.bytes []) 0 0 0 = .error .InvalidName ∧
    messageFromStr [36, 46, 66] (.bytes [1, 2, 3]) 0 0 0 = .error .InvalidPayload ∧
    ∃ frame, messageFromStr [36, 46, 66] (.bytes [100, 97, 116, 97]) 0 0 0
      = .ok frame :=
  ⟨(claim_C7_amended [36, 46] [] 0 0 0 (by decide) (by decide) (by decide)
      (by decide)).1 (by decide) (by decide),
   (claim_C7_amended [36, 46, 66] [1, 2, 3] 0 0 0 (by decide) (by decide)
      (by decide) (by decide)).2.1 (by decide),
   (claim_C7_amended [36, 46, 66] [100, 97, 116, 97] 0 0 0 (by decide) (by decide)
      (by decide) (by decide)).2.2 (by decide) (by decide)⟩

/-- Witness for claim C8: a bad start guard, a length mismatch under good
guards, and a too-short declared name under good guards. -/
theorem claim_C8_decode_errors_witness :
    decodeWords [0] = .error .CorruptMessage ∧
    decodeWords [1937072747, 0, 0, 0, 0, 6, 5, 7, 8, 1801614707]
      = .error .CorruptMessage ∧
    decodeWords [1937072747, 0, 0, 0, 0, 2, 0, 1801614707] = .error .InvalidName :=
  ⟨(claim_C8_decode_errors [0]).1 (by decide),
   (claim_C8_decode_errors [1937072747, 0, 0, 0, 0, 6, 5, 7, 8, 1801614707]).2.1
      (by decide) (by decide) (by decide) (by decide),
   (claim_C8_decode_errors [1937072747, 0, 0, 0, 0, 2, 0, 1801614707]).2.2
      (by decide) (by decide) (by decide) (by decide)⟩

/-- Witness for claim C9: a Router-stamped copy of the "$.Fred" frame is
equivalent to the original. -/
theorem claim_C9_equivalent_witness :
    equivalent [1937072747, 0, 0, 0, 0, 6, 1, 1917201956, 25701, 1635017060,
        1801614707]
      (setIdFrom [1937072747, 0, 0, 0, 0, 6, 1, 1917201956, 25701, 1635017060,
        1801614707] 42 9) = true :=
  (claim_C9_equivalent
    [1937072747, 0, 0, 0, 0, 6, 1, 1917201956, 25701, 1635017060, 1801614707]
    (setIdFrom [1937072747, 0, 0, 0, 0, 6, 1, 1917201956, 25701, 1635017060,
      1801614707] 42 9)).2 42 9

/-- Witness for claim C10: the name path and the frame path at concrete
strings. -/
theorem claim_C10_dispatch_witness :
    messageFromStr [36, 46, 66] .noData 0 0 0 = encode [36, 46, 66] .noData 0 0 0 ∧
    messageFromStr [97, 98, 99, 100] .noData 0 0 0 = decodeBytes [97, 98, 99, 100] :=
  ⟨(claim_C10_dispatch [36, 46, 66] .noData 0 0 0).1 (by decide),
   (claim_C10_dispatch [97, 98, 99, 100] .noData 0 0 0).2.1 (by decide) (by decide)⟩

/-- Witness for claim C3: a second replier bind on "$.B" collides, a
listener bind on the same name succeeds. -/
theorem claim_C3_replier_exclusion_witness :
    bindB [⟨1, [36, 46, 66], true, false⟩] 2 [36, 46, 66] true false
        = .error .AddressInUse ∧
    bindB [⟨1, [36, 46, 66], true, false⟩] 2 [36, 46, 66] false false
        = .ok ([⟨1, [36, 46, 66], true, false⟩] ++ [⟨2, [36, 46, 66], false, false⟩]) :=
  ⟨(claim_C3_replier_exclusion [⟨1, [36, 46, 66], true, false⟩] 2 [36, 46, 66]
      false (by simp [wfTable])).1.mpr (by decide),
   (claim_C3_replier_exclusion [⟨1, [36, 46, 66], true, false⟩] 2 [36, 46, 66]
      false (by simp [wfTable])).2.2 (by decide)⟩

/-- The Bus state for the claim C4 witness: no bindings at all, five ids
already assigned. -/
def busC4 : Bus := { table := [], queues := fun _ => [], counter := 5 }

/-- Witness for claim C4: sending "$.B" on a Bus with no bindings fails
and leaves the Bus untouched. -/
theorem claim_C4_no_listener_witness :
    send busC4 1 [1937072747, 0, 0, 0, 0, 3, 0, 4337188, 1801614707]
      = (.error .AddressNotAvailable, busC4) :=
  (claim_C4_no_listener busC4 1
    [1937072747, 0, 0, 0, 0, 3, 0, 4337188, 1801614707] (by decide)).1

/-- Witness for claim C5: unbinding from an empty table fails; unbinding
with two identical matches removes the first; three identical listener
binds then three identical unbinds return to the start. -/
theorem claim_C5_unbind_exact_witness :
    unbindB [] 1 [36, 46, 66] false false = .error .InvalidArgument ∧
    unbindB [⟨2, [36, 46, 70], true, true⟩, ⟨1, [36, 46, 66], false, false⟩,
        ⟨1, [36, 46, 66], false, false⟩] 1 [36, 46, 66] false false
      = .ok ([⟨2, [36, 46, 70], true, true⟩] ++ [⟨1, [36, 46, 66], false, false⟩]) ∧
    unbindN 3 ([] ++ List.replicate 3 ⟨1, [36, 46, 66], false, false⟩)
      1 [36, 46, 66] false false = .ok [] ∧
    bindN 3 [] 1 [36, 46, 66] false false
      = .ok ([] ++ List.replicate 3 ⟨1, [36, 46, 66], false, false⟩) :=
  ⟨(claim_C5_unbind_exact [] 1 [36, 46, 66] false false).1 (by decide),
   ((claim_C5_unbind_exact [⟨2, [36, 46, 70], true, true⟩,
        ⟨1, [36, 46, 66], false, false⟩, ⟨1, [36, 46, 66], false, false⟩]
      1 [36, 46, 66] false false).2.1 [⟨2, [36, 46, 70], true, true⟩]
      [⟨1, [36, 46, 66], false, false⟩] ⟨1, [36, 46, 66], false, false⟩
      (by decide) (by decide) (by decide)).1,
   ((claim_C5_unbind_exact [] 1 [36, 46, 66] false false).2.2.1 3 (by decide)).1,
   (claim_C5_unbind_exact [] 1 [36, 46, 66] false false).2.2.2 3 (by decide)⟩

/-- Witness for the amended claim C1 at the test_read_write_2files
state. -/
theorem claim_C1_amended_witness :
    (send busC1 1 fredFrame).1 = .ok () ∧
    (send busC1 1 fredFrame).2.counter =
      busC1.counter + (matchB (extract fredFrame).name busC1.table).length :=
  ⟨(claim_C1_amended busC1 1 fredFrame (by decide)).1,
   (claim_C1_amended busC1 1 fredFrame (by decide)).2.1⟩

end KBus
